import Mathlib

/-!
Verification development for the ntrpRNG repository (browser seed generator).

The JavaScript source is shallowly embedded: byte values are `Nat` (meant
modulo 256), JS numbers stored in the entropy pools are represented by the
`Nat` standing for their 64-bit IEEE-754 bit pattern, hashing primitives
(`crypto.subtle.digest` with SHA-256 / SHA-512) and the hardware random
source (`crypto.getRandomValues`) are passed in as explicit function or
list parameters, and JS exceptions become `Except RNGError`.
-/

namespace NtrpRNG

/-- Per-category event counters of an `ntrpRNG` instance
(`this.eventCount` in `ntrpRNG.js`). -/
structure EventCount where
  mouse : Nat
  keyboard : Nat
  touch : Nat
  scroll : Nat
  other : Nat
deriving DecidableEq, Repr

/-- The zeroed counter record used at construction and by `clearEntropy`. -/
def EventCount.zero : EventCount := ⟨0, 0, 0, 0, 0⟩

/-- Mutable instance state of class `ntrpRNG` (`ntrpRNG.js`, v1.3.0).
`entropyPool` and `timerDeltas` hold the stored JS numbers (as 64-bit
IEEE-754 bit patterns); `listeners` records whether the document/window
event listeners are currently registered; the three timer handles mirror
`timerId1`, `timerId2`, `rafId`. -/
structure RNGState where
  iterations : Nat
  saltSize : Nat
  autoCollect : Bool
  minEvents : Nat
  entropyPool : List Nat
  timerDeltas : List Nat
  lastTimestamp : Nat
  isCollecting : Bool
  eventCount : EventCount
  listeners : Bool
  timerId1 : Option Nat
  timerId2 : Option Nat
  rafId : Option Nat
deriving DecidableEq, Repr

/-- Constructor options object (`options` parameter of the constructors).
`none` models an absent (`undefined`) field. -/
structure Options where
  iterations : Option Nat
  saltSize : Option Nat
  autoCollect : Option Bool
  minEvents : Option Nat
deriving DecidableEq, Repr

/-- The all-absent options object (`new ntrpRNG()` with no argument). -/
def Options.empty : Options := ⟨none, none, none, none⟩

/-- JS `options.x || d` for a numeric option: `0` is falsy, so both an
absent field and an explicit `0` yield the default. -/
def jsOrNat (v : Option Nat) (d : Nat) : Nat :=
  match v with
  | some n => if n = 0 then d else n
  | none => d

/-- JS `options.autoCollect !== false`: anything but an explicit `false`
counts as `true`. -/
def jsNotFalse (v : Option Bool) : Bool :=
  match v with
  | some false => false
  | _ => true

/-- The module-level anti-tampering constants `REQUIRED_MIN_EVENTS`,
`_VERIFY_A`, `_VERIFY_B`, `_VERIFY_C`.  They are parameters of every
operation that performs the integrity check so that the test-only fault
injection (mutating the module constants) is expressible. -/
structure VerifyConsts where
  requiredMinEvents : Nat
  verifyA : Nat
  verifyB : Nat
  verifyC : Nat
deriving DecidableEq, Repr

/-- The constants exactly as written in the source:
`REQUIRED_MIN_EVENTS = 500`, `_VERIFY_A = 0x1F4`, `_VERIFY_B = 500`,
`_VERIFY_C = 250 * 2`. -/
def genuineConsts : VerifyConsts := ⟨500, 0x1F4, 500, 250 * 2⟩

/-- Errors thrown by `ntrpRNG`: the integrity-check `Error` and the
insufficient-entropy `Error`, whose message carries the weighted event
total, the required 500, and both pool sizes. -/
inductive RNGError where
  | integrityTampered
  | insufficientEntropy (totalEvents requiredEvents poolSize timerSize : Nat)
deriving DecidableEq, Repr

/-- JS `Array.prototype.slice(-n)`: the at most `n` most recent elements
of the array, in order. -/
def sliceLast (n : Nat) (l : List Nat) : List Nat :=
  l.drop (l.length - n)

/-- `ntrpRNG._addEntropy(values)` acting on the behavioral pool: push all
values, then trim to the most recent 2500 when the pool exceeds 5000. -/
def addEntropy (pool values : List Nat) : List Nat :=
  let p := pool ++ values
  if 5000 < p.length then sliceLast 2500 p else p

/-- `ntrpRNG._collectTimerDelta()`: push `now - lastTimestamp` and
`Date.now()` onto the timer pool, update `lastTimestamp`, and trim the
pool to its most recent 500 entries when it exceeds 1000. -/
def collectTimerDelta (s : RNGState) (now dateNow : Nat) : RNGState :=
  let delta := now - s.lastTimestamp
  let td := s.timerDeltas ++ [delta, dateNow]
  { s with lastTimestamp := now,
           timerDeltas := if 1000 < td.length then sliceLast 500 td else td }

/-- `ntrpRNG._getWeightedEventCount()`: the sum of the five counters. -/
def getWeightedEventCount (s : RNGState) : Nat :=
  s.eventCount.mouse + s.eventCount.keyboard + s.eventCount.touch +
    s.eventCount.scroll + s.eventCount.other

/-- One DOM event delivered to an `ntrpRNG` handler.  Each constructor
carries the numeric payload the handler feeds to `_addEntropy` (for touch
events, one list per touch point); `devicemotion` additionally records
whether `accelerationIncludingGravity` was present. -/
inductive Ev where
  | mousemove (vals : List Nat)
  | mousedown (vals : List Nat)
  | keydown (vals : List Nat)
  | touchstart (touches : List (List Nat))
  | touchmove (touches : List (List Nat))
  | scrollEv (vals : List Nat)
  | devicemotion (hasAccel : Bool) (vals : List Nat)
deriving DecidableEq, Repr

/-- The event handlers `_onMouseMove` .. `_onDeviceMotion` of v1.3.0:
append the payload to the behavioral pool and bump the category counter
by the event's fixed weight (mousemove +1 mouse, mousedown +2 mouse,
keydown +3 keyboard, touchstart +2 touch, touchmove +1 touch,
scroll +1 scroll, devicemotion +2 other when acceleration data exists,
otherwise nothing). -/
def recordEvent (s : RNGState) : Ev → RNGState
  | .mousemove vals =>
      { s with entropyPool := addEntropy s.entropyPool vals,
               eventCount := { s.eventCount with mouse := s.eventCount.mouse + 1 } }
  | .mousedown vals =>
      { s with entropyPool := addEntropy s.entropyPool vals,
               eventCount := { s.eventCount with mouse := s.eventCount.mouse + 2 } }
  | .keydown vals =>
      { s with entropyPool := addEntropy s.entropyPool vals,
               eventCount := { s.eventCount with keyboard := s.eventCount.keyboard + 3 } }
  | .touchstart touches =>
      { s with entropyPool := touches.foldl addEntropy s.entropyPool,
               eventCount := { s.eventCount with touch := s.eventCount.touch + 2 } }
  | .touchmove touches =>
      { s with entropyPool := touches.foldl addEntropy s.entropyPool,
               eventCount := { s.eventCount with touch := s.eventCount.touch + 1 } }
  | .scrollEv vals =>
      { s with entropyPool := addEntropy s.entropyPool vals,
               eventCount := { s.eventCount with scroll := s.eventCount.scroll + 1 } }
  | .devicemotion hasAccel vals =>
      if hasAccel then
        { s with entropyPool := addEntropy s.entropyPool vals,
                 eventCount := { s.eventCount with other := s.eventCount.other + 2 } }
      else s

/-- The event categories of the spec's weight table. -/
inductive EvCat where
  | key
  | press
  | tstart
  | motion
  | move
  | tmove
  | scrollc
deriving DecidableEq, Repr

/-- The category under which a handler records an event (`none` for a
`devicemotion` event without acceleration data, which is not recorded). -/
def evCat : Ev → Option EvCat
  | .mousemove _ => some .move
  | .mousedown _ => some .press
  | .keydown _ => some .key
  | .touchstart _ => some .tstart
  | .touchmove _ => some .tmove
  | .scrollEv _ => some .scrollc
  | .devicemotion hasAccel _ => if hasAccel then some .motion else none

/-- Number of events of a list that are recorded under category `c`. -/
def countCat (evs : List Ev) (c : EvCat) : Nat :=
  (evs.filter (fun e => decide (evCat e = some c))).length

/-- Modelled from the spec's weight table (key=3,
press/touch-start/motion=2, move/touch-move/scroll=1): the sum over
categories of occurrence count times fixed weight, the reference value
the code's counters are compared against. -/
def weightedByCategory (evs : List Ev) : Nat :=
  countCat evs .key * 3 + countCat evs .press * 2 + countCat evs .tstart * 2 +
    countCat evs .motion * 2 + countCat evs .move * 1 + countCat evs .tmove * 1 +
    countCat evs .scrollc * 1

/-- The weight a single event contributes to the counters. -/
def evWeight (e : Ev) : Nat :=
  match evCat e with
  | some .key => 3
  | some .press => 2
  | some .tstart => 2
  | some .motion => 2
  | some .move => 1
  | some .tmove => 1
  | some .scrollc => 1
  | none => 0

/-- The 8 bytes `DataView.setFloat64(offset, x, false)` writes for one
value: the value's 64-bit IEEE-754 bit pattern (here the `Nat` itself,
taken modulo 2^64), most significant byte first (big-endian). -/
def float64BE (x : Nat) : List Nat :=
  [x / 2 ^ 56 % 256, x / 2 ^ 48 % 256, x / 2 ^ 40 % 256, x / 2 ^ 32 % 256,
   x / 2 ^ 24 % 256, x / 2 ^ 16 % 256, x / 2 ^ 8 % 256, x % 256]

/-- `ntrpRNG._serializeFloats(floatArray)`: an `ArrayBuffer` of
`length * 8` bytes, value `i` written big-endian at offset `i * 8`. -/
def serializeFloats (xs : List Nat) : List Nat :=
  (xs.map float64BE).flatten

/-- `Uint8Array.prototype.set(src, offset)` on a buffer: overwrite the
region starting at `offset` with `src` (callers keep it in bounds). -/
def uset (buf : List Nat) (offset : Nat) (src : List Nat) : List Nat :=
  buf.take offset ++ src ++ buf.drop (offset + src.length)

/-- The `new Uint8Array(totalLength)` / three-`set` concatenation pattern
used by `combineEntropy` and by the final-mixing step of `generateSeed`:
allocate a zero buffer of the total length and write the three parts at
their running offsets. -/
def bufConcat3 (x y z : List Nat) : List Nat :=
  let total := x.length + y.length + z.length
  let buf := List.replicate total 0
  let buf := uset buf 0 x
  let buf := uset buf x.length y
  uset buf (x.length + y.length) z

/-- `ntrpRNG.combineEntropy(salt)`: serialize both pools, pre-hash each
with SHA-256 (`digest256`), and assemble digest ‖ digest ‖ salt into one
buffer. -/
def combineEntropy (digest256 : List Nat → List Nat) (s : RNGState)
    (salt : List Nat) : List Nat :=
  let entropyHash := digest256 (serializeFloats s.entropyPool)
  let timerHash := digest256 (serializeFloats s.timerDeltas)
  bufConcat3 entropyHash timerHash salt

/-- Loop body of v1.3.0 `ntrpRNG._iterativeHash`: `r` rounds remain, `i`
rounds are done, `h` is the running hash and `y` counts the cooperative
yields taken so far (one after every 100th round). -/
def iterativeHashGo (digest : List Nat → List Nat) :
    Nat → Nat → List Nat → Nat → List Nat × Nat
  | 0, _, h, y => (h, y)
  | Nat.succ r, i, h, y =>
      iterativeHashGo digest r (i + 1) (digest h)
        (if (i + 1) % 100 = 0 then y + 1 else y)

/-- v1.3.0 `ntrpRNG._iterativeHash(data, algorithm, iterations)`: the
resulting hash together with the number of scheduler yields taken. -/
def iterativeHash (digest : List Nat → List Nat) (data : List Nat)
    (iterations : Nat) : List Nat × Nat :=
  iterativeHashGo digest iterations 0 data 0

/-- v1.2.1 `ntrpRNG._iterativeHash` (`part_008`): the plain unbatched
loop rehashing the previous round's output. -/
def iterativeHash121 (digest : List Nat → List Nat) :
    List Nat → Nat → List Nat
  | h, 0 => h
  | h, Nat.succ r => iterativeHash121 digest (digest h) r

/-- `ntrpRNG._xorArrays(a, b)`: byte-wise XOR truncated to the shorter
length. -/
def xorArrays (a b : List Nat) : List Nat :=
  List.zipWith (fun x y => Nat.xor x y) a b

/-- `ntrpRNG._truncate512(hash512)`: first 32 bytes. -/
def truncate512 (hash512 : List Nat) : List Nat :=
  hash512.take 32

/-- The boolean entropy condition tested inside `hasMinimumEntropy` after
its integrity check:
`weightedEvents >= 500 && entropyPool.length > 0 && timerDeltas.length > 0`. -/
def entropySufficient (s : RNGState) : Bool :=
  decide (500 ≤ getWeightedEventCount s) &&
    decide (0 < s.entropyPool.length) && decide (0 < s.timerDeltas.length)

/-- `ntrpRNG.hasMinimumEntropy()`: throw the integrity error when the
module constants disagree or the instance field was tampered with,
otherwise return the entropy condition. -/
def hasMinimumEntropy (k : VerifyConsts) (s : RNGState) :
    Except RNGError Bool :=
  if k.requiredMinEvents ≠ k.verifyA ∨ k.requiredMinEvents ≠ k.verifyB ∨
      k.requiredMinEvents ≠ k.verifyC ∨ s.minEvents ≠ 500 then
    .error .integrityTampered
  else
    .ok (entropySufficient s)

/-- Steps 1–7 of Path A, Path B, and the final double-hash mixing of
`ntrpRNG.generateSeed`, given the fresh salt and the 64 fresh CSPRNG
bytes of this call. -/
def seedPipeline (digest256 digest512 : List Nat → List Nat) (s : RNGState)
    (salt randomBytes : List Nat) : List Nat :=
  let combined := combineEntropy digest256 s salt
  let preHash := digest256 combined
  let hash256A := (iterativeHash digest256 preHash s.iterations).1
  let hash512Afull := (iterativeHash digest512 preHash s.iterations).1
  let hash512A := truncate512 hash512Afull
  let userFinal := xorArrays hash256A hash512A
  let hash256B := digest256 randomBytes
  let hash512Bfull := digest512 randomBytes
  let hash512B := truncate512 hash512Bfull
  let csprngFinal := xorArrays hash256B hash512B
  let finalInput := bufConcat3 userFinal csprngFinal salt
  let intermediate := digest512 finalInput
  digest512 intermediate

/-- `ntrpRNG.generateSeed(skipValidation)`: integrity check first, then
(unless skipped) the entropy validation — `!skipValidation &&
!this.hasMinimumEntropy()` throws the insufficient-entropy error carrying
`stats.totalEvents`, the required 500, and both pool lengths — then the
dual-path pipeline on this call's fresh salt and CSPRNG bytes. -/
def generateSeed (k : VerifyConsts) (digest256 digest512 : List Nat → List Nat)
    (s : RNGState) (skipValidation : Bool) (salt randomBytes : List Nat) :
    Except RNGError (List Nat) :=
  if k.requiredMinEvents ≠ k.verifyA ∨ k.requiredMinEvents ≠ k.verifyB ∨
      k.requiredMinEvents ≠ k.verifyC ∨ s.minEvents ≠ 500 then
    .error .integrityTampered
  else if !skipValidation && !entropySufficient s then
    .error (.insufficientEntropy (getWeightedEventCount s) 500
      s.entropyPool.length s.timerDeltas.length)
  else
    .ok (seedPipeline digest256 digest512 s salt randomBytes)

/-- `getProgress()` return value; `percentage` is modelled in exact
rational arithmetic. -/
structure ProgressInfo where
  currentEvents : Nat
  requiredEvents : Nat
  percentage : ℚ
  ready : Bool
deriving DecidableEq, Repr

/-- `ntrpRNG.getProgress()`. -/
def getProgress (s : RNGState) : ProgressInfo :=
  let currentEvents := getWeightedEventCount s
  ⟨currentEvents, 500, min 100 ((currentEvents : ℚ) / 500 * 100),
    decide (500 ≤ currentEvents)⟩

/-- `getStats()` return value (shared by `ntrpRNG` and `cgRNDV`). -/
structure Stats where
  entropyPoolSize : Nat
  timerDeltasSize : Nat
  isCollecting : Bool
  eventCount : EventCount
  totalEvents : Nat
  minEvents : Nat
  hasMinimumEntropy : Bool
deriving DecidableEq, Repr

/-- `ntrpRNG.getStats()`: propagates the integrity error of its
`hasMinimumEntropy()` field computation. -/
def getStats (k : VerifyConsts) (s : RNGState) : Except RNGError Stats :=
  match hasMinimumEntropy k s with
  | .error e => .error e
  | .ok b =>
      .ok ⟨s.entropyPool.length, s.timerDeltas.length, s.isCollecting,
        s.eventCount, getWeightedEventCount s, s.minEvents, b⟩

/-- The host-scheduler handles handed out when the three jitter timers
are started (`requestAnimationFrame`, `setInterval`, `setTimeout`). -/
structure JitterEnv where
  t1 : Nat
  t2 : Nat
  raf : Nat
deriving DecidableEq, Repr

/-- `ntrpRNG.startCollecting()`: no-op when already collecting, otherwise
register the listeners and start the three jitter timers. -/
def startCollecting (env : JitterEnv) (s : RNGState) : RNGState :=
  if s.isCollecting then s
  else { s with isCollecting := true, listeners := true,
                timerId1 := some env.t1, timerId2 := some env.t2,
                rafId := some env.raf }

/-- `ntrpRNG.stopCollecting()`: no-op when not collecting, otherwise
deregister the listeners and cancel the three jitter timers. -/
def stopCollecting (s : RNGState) : RNGState :=
  if !s.isCollecting then s
  else { s with isCollecting := false, listeners := false,
                timerId1 := none, timerId2 := none, rafId := none }

/-- The `ntrpRNG` constructor: integrity check, option defaulting
(`|| 5000`, `|| 32`, `!== false`), the hardcoded `minEvents = 500` with a
`console.warn` for an attempted override (returned as the `Bool`), the
empty pools/counters, and the auto-start of collection. `now` is the
`performance.now()` reading taken at construction. -/
def mkNtrpRNG (k : VerifyConsts) (env : JitterEnv) (opts : Options)
    (now : Nat) : Except RNGError (RNGState × Bool) :=
  if k.requiredMinEvents ≠ k.verifyA ∨ k.requiredMinEvents ≠ k.verifyB ∨
      k.requiredMinEvents ≠ k.verifyC then
    .error .integrityTampered
  else
    let warned := match opts.minEvents with
      | some v => decide (v ≠ 500)
      | none => false
    let s : RNGState :=
      { iterations := jsOrNat opts.iterations 5000,
        saltSize := jsOrNat opts.saltSize 32,
        autoCollect := jsNotFalse opts.autoCollect,
        minEvents := 500,
        entropyPool := [], timerDeltas := [],
        lastTimestamp := now, isCollecting := false,
        eventCount := EventCount.zero, listeners := false,
        timerId1 := none, timerId2 := none, rafId := none }
    .ok (if s.autoCollect then startCollecting env s else s, warned)

/-- `ntrpRNG.clearEntropy()`: empty both pools and zero the counters. -/
def clearEntropy (s : RNGState) : RNGState :=
  { s with entropyPool := [], timerDeltas := [],
           eventCount := EventCount.zero }

/-- Instance state of the baseline class `cgRNDV` (`cgRNDV.js`). -/
structure CgState where
  iterations : Nat
  saltSize : Nat
  autoCollect : Bool
  minEvents : Nat
  isCollecting : Bool
  entropyPool : List Nat
  timerDeltas : List Nat
  eventCount : EventCount
deriving DecidableEq, Repr

/-- The `cgRNDV` constructor: stores the options (`minEvents || 0`), keeps
dummy empty pools and zero counters, and runs the no-op `startCollecting`
when `autoCollect` holds. -/
def mkCgRNDV (opts : Options) : CgState :=
  { iterations := jsOrNat opts.iterations 5000,
    saltSize := jsOrNat opts.saltSize 32,
    autoCollect := jsNotFalse opts.autoCollect,
    minEvents := jsOrNat opts.minEvents 0,
    isCollecting := jsNotFalse opts.autoCollect,
    entropyPool := [], timerDeltas := [],
    eventCount := EventCount.zero }

/-- `cgRNDV.startCollecting()`: sets the flag, nothing else. -/
def cgStartCollecting (s : CgState) : CgState :=
  { s with isCollecting := true }

/-- `cgRNDV.stopCollecting()`: clears the flag, nothing else. -/
def cgStopCollecting (s : CgState) : CgState :=
  { s with isCollecting := false }

/-- `cgRNDV.hasMinimumEntropy()`: `return true`. -/
def cgHasMinimumEntropy (_s : CgState) : Bool := true

/-- `cgRNDV.generateSeed(skipValidation)`: ignores the flag and the state
and returns `crypto.getRandomValues(new Uint8Array(64))` — 64 fresh bytes
from the hardware random source, modelled by the `getRandomValues`
parameter. -/
def cgGenerateSeed (getRandomValues : Nat → List Nat) (_s : CgState)
    (_skipValidation : Bool) : List Nat :=
  getRandomValues 64

/-- `cgRNDV.getStats()`: literal zero pool sizes and `totalEvents: 0`,
literal `hasMinimumEntropy: true`, live `isCollecting` / counters /
`minEvents`. -/
def cgGetStats (s : CgState) : Stats :=
  ⟨0, 0, s.isCollecting, s.eventCount, 0, s.minEvents, true⟩

/-! ### Helper lemmas -/

/-- The three-`set` buffer assembly is plain concatenation. -/
theorem bufConcat3_eq (x y z : List Nat) : bufConcat3 x y z = x ++ y ++ z := by
  unfold bufConcat3 uset
  simp only [List.take_zero, List.nil_append, Nat.zero_add, List.drop_replicate]
  have h1 : x ++ List.replicate (x.length + y.length + z.length - x.length) 0
      = x ++ List.replicate (y.length + z.length) 0 := by
    congr 1
    congr 1
    omega
  rw [h1]
  rw [List.take_left x (List.replicate (y.length + z.length) 0)]
  have h2 : (x ++ List.replicate (y.length + z.length) 0).drop (x.length + y.length)
      = List.replicate z.length 0 := by
    rw [List.drop_append y.length, List.drop_replicate]
    congr 1
    omega
  rw [h2]
  have h3 : ((x ++ y) ++ List.replicate z.length 0).take (x.length + y.length)
      = x ++ y := by
    have := List.take_left (x ++ y) (List.replicate z.length 0)
    simpa using this
  have h4 : ((x ++ y) ++ List.replicate z.length 0).drop
      (x.length + y.length + z.length) = [] := by
    apply List.drop_eq_nil_of_le
    simp
    omega
  rw [h3, h4]
  simp

/-- Serialization emits exactly 8 bytes per input value. -/
theorem serializeFloats_length (xs : List Nat) :
    (serializeFloats xs).length = 8 * xs.length := by
  induction xs with
  | nil => rfl
  | cons x xs ih =>
      simp only [serializeFloats] at ih
      simp only [serializeFloats, List.map_cons, List.flatten_cons,
        List.length_append, List.length_cons, ih]
      have h8 : (float64BE x).length = 8 := rfl
      rw [h8]
      ring

/-- The 8-byte block at offset `8 * i` of the serialization is the
big-endian encoding of the `i`-th input value. -/
theorem serializeFloats_block (xs : List Nat) (i : Nat) (h : i < xs.length) :
    ((serializeFloats xs).drop (8 * i)).take 8 = float64BE (xs.getD i 0) := by
  induction xs generalizing i with
  | nil => simp at h
  | cons x xs ih =>
      cases i with
      | zero =>
          simp only [serializeFloats, List.map_cons, List.flatten_cons,
            Nat.mul_zero, List.drop_zero, List.getD_cons_zero]
          have h8 : (float64BE x).length = 8 := rfl
          rw [List.take_append_eq_append_take, List.take_of_length_le (by rw [h8]),
            h8]
          simp
      | succ j =>
          simp only [serializeFloats, List.map_cons, List.flatten_cons,
            List.getD_cons_succ]
          have h8 : (float64BE x).length = 8 := rfl
          have hm : 8 * (j + 1) = (float64BE x).length + 8 * j := by
            rw [h8]; ring
          rw [hm, List.drop_append (8 * j)]
          exact ih j (by simpa using h)

/-- Batched-loop invariant: the hash component of `iterativeHashGo` is the
unbatched v1.2.1 loop, whatever the round index and yield count. -/
theorem iterativeHashGo_fst (digest : List Nat → List Nat) (r : Nat) :
    ∀ i h y, (iterativeHashGo digest r i h y).1 = iterativeHash121 digest h r := by
  induction r with
  | zero => intro i h y; rfl
  | succ r ih =>
      intro i h y
      simp only [iterativeHashGo, iterativeHash121]
      exact ih (i + 1) (digest h) _

/-- The pipeline output is a SHA-512 digest of the intermediate value. -/
theorem seedPipeline_shape (digest256 digest512 : List Nat → List Nat)
    (s : RNGState) (salt randomBytes : List Nat) :
    ∃ v, seedPipeline digest256 digest512 s salt randomBytes = digest512 v :=
  ⟨_, rfl⟩

/-- A concrete untampered instance state (the state right after
`new ntrpRNG({autoCollect: false})`), used to instantiate theorems. -/
def sampleState : RNGState :=
  { iterations := 5000, saltSize := 32, autoCollect := false,
    minEvents := 500, entropyPool := [], timerDeltas := [],
    lastTimestamp := 0, isCollecting := false,
    eventCount := EventCount.zero, listeners := false,
    timerId1 := none, timerId2 := none, rafId := none }

/-- One `_addEntropy` call never leaves the behavioral pool above 5000. -/
theorem addEntropy_le (pool values : List Nat) :
    (addEntropy pool values).length ≤ 5000 := by
  simp only [addEntropy]
  split
  · simp only [sliceLast, List.length_drop]
    omega
  · omega

/-- Folding `_addEntropy` over the touch list (the `touchstart` /
`touchmove` handlers) preserves the behavioral cap. -/
theorem foldl_addEntropy_le (touches : List (List Nat)) (pool : List Nat)
    (h : pool.length ≤ 5000) :
    (touches.foldl addEntropy pool).length ≤ 5000 := by
  induction touches generalizing pool with
  | nil => exact h
  | cons t ts ih => exact ih _ (addEntropy_le pool t)

/-- Every v1.3.0 handler preserves the behavioral-pool cap. -/
theorem recordEvent_pool_le (s : RNGState) (h : s.entropyPool.length ≤ 5000)
    (e : Ev) : (recordEvent s e).entropyPool.length ≤ 5000 := by
  cases e with
  | mousemove vals => exact addEntropy_le _ _
  | mousedown vals => exact addEntropy_le _ _
  | keydown vals => exact addEntropy_le _ _
  | touchstart touches => exact foldl_addEntropy_le touches _ h
  | touchmove touches => exact foldl_addEntropy_le touches _ h
  | scrollEv vals => exact addEntropy_le _ _
  | devicemotion b vals =>
      cases b
      · simpa [recordEvent] using h
      · exact addEntropy_le _ _

/-- Splitting off one event from a category count. -/
theorem countCat_cons (e : Ev) (evs : List Ev) (c : EvCat) :
    countCat (e :: evs) c =
      (if evCat e = some c then 1 else 0) + countCat evs c := by
  simp only [countCat, List.filter_cons]
  by_cases h : evCat e = some c
  · simp [h, Nat.add_comm]
  · simp [h]

/-- Each handler adds exactly the event's fixed weight to the counters. -/
theorem weighted_recordEvent (s : RNGState) (e : Ev) :
    getWeightedEventCount (recordEvent s e) =
      getWeightedEventCount s + evWeight e := by
  cases e with
  | mousemove vals =>
      simp only [recordEvent, getWeightedEventCount, evWeight, evCat]
      omega
  | mousedown vals =>
      simp only [recordEvent, getWeightedEventCount, evWeight, evCat]
      omega
  | keydown vals =>
      simp only [recordEvent, getWeightedEventCount, evWeight, evCat]
      omega
  | touchstart touches =>
      simp only [recordEvent, getWeightedEventCount, evWeight, evCat]
      omega
  | touchmove touches =>
      simp only [recordEvent, getWeightedEventCount, evWeight, evCat]
      omega
  | scrollEv vals =>
      simp only [recordEvent, getWeightedEventCount, evWeight, evCat]
      omega
  | devicemotion b vals =>
      cases b <;>
        simp only [recordEvent, getWeightedEventCount, evWeight, evCat,
          if_true, if_false, Bool.false_eq_true, ite_true, ite_false] <;>
        omega

/-- Prepending one event adds its weight to the per-category sum. -/
theorem weightedByCategory_cons (e : Ev) (evs : List Ev) :
    weightedByCategory (e :: evs) = evWeight e + weightedByCategory evs := by
  cases e with
  | mousemove vals =>
      simp only [weightedByCategory, countCat_cons, evCat, evWeight]
      simp
      omega
  | mousedown vals =>
      simp only [weightedByCategory, countCat_cons, evCat, evWeight]
      simp
      omega
  | keydown vals =>
      simp only [weightedByCategory, countCat_cons, evCat, evWeight]
      simp
      omega
  | touchstart touches =>
      simp only [weightedByCategory, countCat_cons, evCat, evWeight]
      simp
      omega
  | touchmove touches =>
      simp only [weightedByCategory, countCat_cons, evCat, evWeight]
      simp
      omega
  | scrollEv vals =>
      simp only [weightedByCategory, countCat_cons, evCat, evWeight]
      simp
      omega
  | devicemotion b vals =>
      cases b
      · simp only [weightedByCategory, countCat_cons, evCat, evWeight]
        simp
      · simp only [weightedByCategory, countCat_cons, evCat, evWeight]
        simp
        omega

/-- Folding `n` copies of one event adds `n` times its weight. -/
theorem weighted_foldl_replicate (e : Ev) (n : Nat) (s0 : RNGState) :
    getWeightedEventCount (List.foldl recordEvent s0 (List.replicate n e)) =
      getWeightedEventCount s0 + n * evWeight e := by
  induction n generalizing s0 with
  | zero => simp
  | succ m ih =>
      rw [List.replicate_succ, List.foldl_cons, ih, weighted_recordEvent]
      ring

/-! ### Claim theorems -/

/-- C5: for every pair of pool contents and every salt,
`combineEntropy(salt)` is exactly
digest256(serialize(behavioralPool)) ‖ digest256(serialize(timerPool)) ‖ salt,
and `_serializeFloats` maps N values to exactly N×8 bytes, zero values to
zero bytes, writing each value big-endian at its sequence position (both
are Lean functions, hence pure in their inputs). -/
theorem combine_serialize_contract (digest256 : List Nat → List Nat)
    (s : RNGState) (salt : List Nat) :
    combineEntropy digest256 s salt =
      digest256 (serializeFloats s.entropyPool) ++
        digest256 (serializeFloats s.timerDeltas) ++ salt
    ∧ (∀ xs : List Nat, (serializeFloats xs).length = 8 * xs.length)
    ∧ serializeFloats [] = []
    ∧ (∀ xs : List Nat, ∀ i, i < xs.length →
        ((serializeFloats xs).drop (8 * i)).take 8 = float64BE (xs.getD i 0)) :=
  ⟨bufConcat3_eq _ _ _, serializeFloats_length, rfl, serializeFloats_block⟩

/-- Witness for C5 at a concrete value: the serialization of `[5]` starts
with the 8 big-endian bytes of value `5`. -/
theorem combine_serialize_contract_witness :
    (0 : Nat) < ([5] : List Nat).length ∧
      ((serializeFloats [5]).drop (8 * 0)).take 8 = float64BE (([5] : List Nat).getD 0 0) :=
  ⟨by decide,
    (combine_serialize_contract (fun _ => []) sampleState []).2.2.2 [5] 0 (by decide)⟩

/-- C6: after any `_addEntropy` call the behavioral pool holds at most
5000 values and after any `_collectTimerDelta` call the timer pool holds
at most 1000; below the cap the pool is exactly the appended sequence,
and on overflow each pool is trimmed to exactly its most recently
recorded tail (2500 resp. 500 values, in order); every event handler
preserves the behavioral cap. -/
theorem pool_capping_contract (pool values : List Nat) (s : RNGState)
    (now dateNow : Nat) :
    (addEntropy pool values).length ≤ 5000
    ∧ ((pool ++ values).length ≤ 5000 → addEntropy pool values = pool ++ values)
    ∧ (5000 < (pool ++ values).length →
        addEntropy pool values = sliceLast 2500 (pool ++ values)
        ∧ (addEntropy pool values).length = 2500)
    ∧ (collectTimerDelta s now dateNow).timerDeltas.length ≤ 1000
    ∧ ((s.timerDeltas ++ [now - s.lastTimestamp, dateNow]).length ≤ 1000 →
        (collectTimerDelta s now dateNow).timerDeltas =
          s.timerDeltas ++ [now - s.lastTimestamp, dateNow])
    ∧ (1000 < (s.timerDeltas ++ [now - s.lastTimestamp, dateNow]).length →
        (collectTimerDelta s now dateNow).timerDeltas =
          sliceLast 500 (s.timerDeltas ++ [now - s.lastTimestamp, dateNow])
        ∧ (collectTimerDelta s now dateNow).timerDeltas.length = 500)
    ∧ (s.entropyPool.length ≤ 5000 →
        ∀ e, (recordEvent s e).entropyPool.length ≤ 5000) := by
  refine ⟨addEntropy_le pool values, ?_, ?_, ?_, ?_, ?_,
    fun h e => recordEvent_pool_le s h e⟩
  · intro h
    simp only [addEntropy]
    rw [if_neg (by omega)]
  · intro h
    constructor
    · simp only [addEntropy]
      rw [if_pos (by omega)]
    · simp only [addEntropy]
      rw [if_pos (by omega)]
      simp only [sliceLast, List.length_drop]
      simp only [List.length_append] at h ⊢
      omega
  · simp only [collectTimerDelta]
    split
    · simp only [sliceLast, List.length_drop]
      omega
    · omega
  · intro h
    simp only [collectTimerDelta]
    rw [if_neg (by omega)]
  · intro h
    constructor
    · simp only [collectTimerDelta]
      rw [if_pos (by omega)]
    · simp only [collectTimerDelta]
      rw [if_pos (by omega)]
      simp only [sliceLast, List.length_drop]
      simp only [List.length_append] at h ⊢
      omega

/-- Witness for C6 at a concrete overflow: pushing 2 values onto a pool
of 4999 overflows the 5000 cap and trims the pool to exactly 2500. -/
theorem pool_capping_contract_witness :
    5000 < ((List.replicate 4999 (0 : Nat)) ++ [1, 2]).length ∧
      (addEntropy (List.replicate 4999 (0 : Nat)) [1, 2]).length = 2500 :=
  ⟨by simp only [List.length_append, List.length_replicate, List.length_cons,
      List.length_nil]; omega,
    ((pool_capping_contract (List.replicate 4999 0) [1, 2] sampleState 0 0).2.2.1
      (by simp only [List.length_append, List.length_replicate, List.length_cons,
        List.length_nil]; omega)).2⟩

/-- C7: the v1.3.0 batched iterative hash (which additionally counts a
scheduler yield after every 100th round) computes exactly the same bytes
as the v1.2.1 unbatched iterative hash, for every digest function, input
block and iteration count. -/
theorem batched_hash_equals_unbatched (digest : List Nat → List Nat)
    (data : List Nat) (iterations : Nat) :
    (iterativeHash digest data iterations).1 =
      iterativeHash121 digest data iterations :=
  iterativeHashGo_fst digest iterations 0 data 0

/-- C10: `clearEntropy()` empties both pools and zeroes all five
counters, and leaves `isCollecting`, `iterations`, `saltSize`,
`autoCollect`, `minEvents`, the listener registration and all three timer
handles exactly as they were — in particular an active collection keeps
running. -/
theorem clearEntropy_frame_contract (s : RNGState) :
    (clearEntropy s).entropyPool = []
    ∧ (clearEntropy s).timerDeltas = []
    ∧ (clearEntropy s).eventCount = EventCount.zero
    ∧ (clearEntropy s).isCollecting = s.isCollecting
    ∧ (clearEntropy s).iterations = s.iterations
    ∧ (clearEntropy s).saltSize = s.saltSize
    ∧ (clearEntropy s).autoCollect = s.autoCollect
    ∧ (clearEntropy s).minEvents = s.minEvents
    ∧ (clearEntropy s).listeners = s.listeners
    ∧ (clearEntropy s).timerId1 = s.timerId1
    ∧ (clearEntropy s).timerId2 = s.timerId2
    ∧ (clearEntropy s).rafId = s.rafId :=
  ⟨rfl, rfl, rfl, rfl, rfl, rfl, rfl, rfl, rfl, rfl, rfl, rfl⟩

/-- C3: for every sequence of recorded categorized events the weighted
total equals the sum over categories of occurrence count times fixed
weight (keydown=3, mousedown/touchstart/devicemotion=2,
mousemove/touchmove/scroll=1); 100 key + 100 press + 100 move events
yield a weighted total of 600; 500 key events alone yield
`currentEvents = 1500` with percentage 100 and `ready = true`. -/
theorem weighted_counting_contract :
    (∀ evs : List Ev, ∀ s0 : RNGState,
      getWeightedEventCount (List.foldl recordEvent s0 evs) =
        getWeightedEventCount s0 + weightedByCategory evs)
    ∧ getWeightedEventCount (List.foldl recordEvent sampleState
        (List.replicate 100 (Ev.keydown []) ++ List.replicate 100 (Ev.mousedown [])
          ++ List.replicate 100 (Ev.mousemove []))) = 600
    ∧ getProgress (List.foldl recordEvent sampleState
        (List.replicate 500 (Ev.keydown []))) = ⟨1500, 500, 100, true⟩ := by
  refine ⟨?_, ?_, ?_⟩
  · intro evs
    induction evs with
    | nil =>
        intro s0
        simp [weightedByCategory, countCat]
    | cons e evs ih =>
        intro s0
        rw [List.foldl_cons, ih, weighted_recordEvent, weightedByCategory_cons]
        omega
  · rw [List.foldl_append, List.foldl_append, weighted_foldl_replicate,
      weighted_foldl_replicate, weighted_foldl_replicate]
    decide
  · have hc : getWeightedEventCount (List.foldl recordEvent sampleState
        (List.replicate 500 (Ev.keydown []))) = 1500 := by
      rw [weighted_foldl_replicate]
      decide
    simp only [getProgress, hc, ProgressInfo.mk.injEq]
    norm_num

/-- C2: `hasMinimumEntropy()` on an untampered instance returns `true`
iff the weighted total is at least 500 and both pools are non-empty, and
`getProgress()` returns exactly the weighted total, the fixed 500, the
capped percentage, and readiness at the 500 threshold. -/
theorem readiness_progress_contract (s : RNGState) (hm : s.minEvents = 500) :
    (hasMinimumEntropy genuineConsts s = .ok true ↔
      (500 ≤ getWeightedEventCount s ∧ 0 < s.entropyPool.length ∧
        0 < s.timerDeltas.length))
    ∧ (getProgress s).currentEvents = getWeightedEventCount s
    ∧ (getProgress s).requiredEvents = 500
    ∧ (getProgress s).percentage =
        min 100 ((getWeightedEventCount s : ℚ) / 500 * 100)
    ∧ ((getProgress s).ready = true ↔ 500 ≤ getWeightedEventCount s) := by
  have hcond : ¬(genuineConsts.requiredMinEvents ≠ genuineConsts.verifyA ∨
      genuineConsts.requiredMinEvents ≠ genuineConsts.verifyB ∨
      genuineConsts.requiredMinEvents ≠ genuineConsts.verifyC ∨
      s.minEvents ≠ 500) := by
    simp [genuineConsts, hm]
  refine ⟨?_, rfl, rfl, rfl, ?_⟩
  · rw [hasMinimumEntropy, if_neg hcond]
    simp [entropySufficient, and_assoc]
  · simp [getProgress]

/-- Witness for C2 on a concrete untampered instance. -/
theorem readiness_progress_contract_witness :
    sampleState.minEvents = 500 ∧
      (getProgress sampleState).requiredEvents = 500 :=
  ⟨by decide, (readiness_progress_contract sampleState (by decide)).2.2.1⟩

/-- C1: on an untampered instance, `generateSeed(false)` rejects with the
insufficient-entropy error carrying the weighted total, the required 500
and both pool sizes exactly when `hasMinimumEntropy()` is `false`;
`generateSeed(true)` on a freshly-reset accumulator (both pools empty)
succeeds with 64 bytes; and every successful call — for any 64-byte-digest
SHA-512 model — resolves with exactly 64 bytes. -/
theorem generateSeed_contract (digest256 digest512 : List Nat → List Nat)
    (h512 : ∀ x, (digest512 x).length = 64)
    (s : RNGState) (salt randomBytes : List Nat) :
    (generateSeed genuineConsts digest256 digest512 s false salt randomBytes =
        .error (.insufficientEntropy (getWeightedEventCount s) 500
          s.entropyPool.length s.timerDeltas.length)
      ↔ hasMinimumEntropy genuineConsts s = .ok false)
    ∧ (s.minEvents = 500 →
        ∃ out, generateSeed genuineConsts digest256 digest512 (clearEntropy s)
            true salt randomBytes = .ok out ∧ out.length = 64)
    ∧ (∀ skipValidation out,
        generateSeed genuineConsts digest256 digest512 s skipValidation salt
            randomBytes = .ok out → out.length = 64) := by
  refine ⟨?_, ?_, ?_⟩
  · by_cases hm : s.minEvents = 500
    · have hcond : ¬(genuineConsts.requiredMinEvents ≠ genuineConsts.verifyA ∨
          genuineConsts.requiredMinEvents ≠ genuineConsts.verifyB ∨
          genuineConsts.requiredMinEvents ≠ genuineConsts.verifyC ∨
          s.minEvents ≠ 500) := by
        simp [genuineConsts, hm]
      rw [generateSeed, if_neg hcond, hasMinimumEntropy, if_neg hcond]
      cases he : entropySufficient s
      · simp [he]
      · simp [he]
    · have hcond : (genuineConsts.requiredMinEvents ≠ genuineConsts.verifyA ∨
          genuineConsts.requiredMinEvents ≠ genuineConsts.verifyB ∨
          genuineConsts.requiredMinEvents ≠ genuineConsts.verifyC ∨
          s.minEvents ≠ 500) := by
        right; right; right; exact hm
      rw [generateSeed, if_pos hcond, hasMinimumEntropy, if_pos hcond]
      simp
  · intro hm
    have hcond : ¬(genuineConsts.requiredMinEvents ≠ genuineConsts.verifyA ∨
        genuineConsts.requiredMinEvents ≠ genuineConsts.verifyB ∨
        genuineConsts.requiredMinEvents ≠ genuineConsts.verifyC ∨
        (clearEntropy s).minEvents ≠ 500) := by
      simp [genuineConsts, clearEntropy, hm]
    refine ⟨seedPipeline digest256 digest512 (clearEntropy s) salt randomBytes,
      ?_, ?_⟩
    · rw [generateSeed, if_neg hcond]
      simp
    · obtain ⟨v, hv⟩ :=
        seedPipeline_shape digest256 digest512 (clearEntropy s) salt randomBytes
      rw [hv]
      exact h512 v
  · intro skipValidation out h
    by_cases hc1 : (genuineConsts.requiredMinEvents ≠ genuineConsts.verifyA ∨
        genuineConsts.requiredMinEvents ≠ genuineConsts.verifyB ∨
        genuineConsts.requiredMinEvents ≠ genuineConsts.verifyC ∨
        s.minEvents ≠ 500)
    · rw [generateSeed, if_pos hc1] at h
      simp at h
    · rw [generateSeed, if_neg hc1] at h
      cases hb : (!skipValidation && !entropySufficient s)
      · rw [hb] at h
        simp only [Bool.false_eq_true, if_false] at h
        have hout : out = seedPipeline digest256 digest512 s salt randomBytes := by
          simpa using h.symm
        rw [hout]
        obtain ⟨v, hv⟩ := seedPipeline_shape digest256 digest512 s salt randomBytes
        rw [hv]
        exact h512 v
      · rw [hb] at h
        simp at h

/-- Witness for C1: with a constant-digest model of SHA-512 and a fresh
default instance, `generateSeed(true)` succeeds and returns 64 bytes. -/
theorem generateSeed_contract_witness :
    ∃ out, generateSeed genuineConsts (fun _ => List.replicate 32 0)
        (fun _ => List.replicate 64 0) (clearEntropy sampleState) true [] [] =
          .ok out ∧ out.length = 64 :=
  (generateSeed_contract (fun _ => List.replicate 32 0)
    (fun _ => List.replicate 64 0) (fun x => by simp) sampleState [] []).2.1
    (by decide)

/-- C4: construction, `hasMinimumEntropy()` and `generateSeed()` raise
the integrity error exactly when the built-in threshold constants
disagree (for the latter two, also when the instance field differs from
500); with the genuine constants construction always succeeds, the
instance threshold is always 500, and a threshold-override attempt
(requesting a value other than the hardcoded 500) is diagnosed via
`console.warn`. -/
theorem integrity_guard_contract :
    (∀ k env opts now,
      mkNtrpRNG k env opts now = .error .integrityTampered ↔
        ¬(k.requiredMinEvents = k.verifyA ∧ k.requiredMinEvents = k.verifyB ∧
          k.requiredMinEvents = k.verifyC))
    ∧ (∀ k s, hasMinimumEntropy k s = .error .integrityTampered ↔
        ¬(k.requiredMinEvents = k.verifyA ∧ k.requiredMinEvents = k.verifyB ∧
          k.requiredMinEvents = k.verifyC ∧ s.minEvents = 500))
    ∧ (∀ k d256 d512 s skipValidation salt rnd,
        generateSeed k d256 d512 s skipValidation salt rnd =
            .error .integrityTampered ↔
          ¬(k.requiredMinEvents = k.verifyA ∧ k.requiredMinEvents = k.verifyB ∧
            k.requiredMinEvents = k.verifyC ∧ s.minEvents = 500))
    ∧ (∀ env opts now, ∃ p,
        mkNtrpRNG genuineConsts env opts now = .ok p ∧ p.1.minEvents = 500)
    ∧ (∀ env opts now v p, opts.minEvents = some v → v ≠ 500 →
        mkNtrpRNG genuineConsts env opts now = .ok p → p.2 = true) := by
  refine ⟨?_, ?_, ?_, ?_, ?_⟩
  · intro k env opts now
    by_cases h : (k.requiredMinEvents ≠ k.verifyA ∨
        k.requiredMinEvents ≠ k.verifyB ∨ k.requiredMinEvents ≠ k.verifyC)
    · rw [mkNtrpRNG, if_pos h]
      constructor
      · intro _ hall
        rcases h with h | h | h
        · exact h hall.1
        · exact h hall.2.1
        · exact h hall.2.2
      · intro _
        rfl
    · rw [mkNtrpRNG, if_neg h]
      push_neg at h
      constructor
      · intro hfalse
        simp at hfalse
      · intro hnot
        exact absurd h hnot
  · intro k s
    by_cases h : (k.requiredMinEvents ≠ k.verifyA ∨
        k.requiredMinEvents ≠ k.verifyB ∨ k.requiredMinEvents ≠ k.verifyC ∨
        s.minEvents ≠ 500)
    · rw [hasMinimumEntropy, if_pos h]
      constructor
      · intro _ hall
        rcases h with h | h | h | h
        · exact h hall.1
        · exact h hall.2.1
        · exact h hall.2.2.1
        · exact h hall.2.2.2
      · intro _
        rfl
    · rw [hasMinimumEntropy, if_neg h]
      push_neg at h
      constructor
      · intro hfalse
        simp at hfalse
      · intro hnot
        exact absurd h hnot
  · intro k d256 d512 s skipValidation salt rnd
    by_cases h : (k.requiredMinEvents ≠ k.verifyA ∨
        k.requiredMinEvents ≠ k.verifyB ∨ k.requiredMinEvents ≠ k.verifyC ∨
        s.minEvents ≠ 500)
    · rw [generateSeed, if_pos h]
      constructor
      · intro _ hall
        rcases h with h | h | h | h
        · exact h hall.1
        · exact h hall.2.1
        · exact h hall.2.2.1
        · exact h hall.2.2.2
      · intro _
        rfl
    · rw [generateSeed, if_neg h]
      push_neg at h
      cases hb : (!skipValidation && !entropySufficient s)
      · rw [if_neg (by simp)]
        constructor
        · intro hfalse
          simp at hfalse
        · intro hnot
          exact absurd h hnot
      · rw [if_pos rfl]
        constructor
        · intro hfalse
          simp at hfalse
        · intro hnot
          exact absurd h hnot
  · intro env opts now
    have hcond : ¬(genuineConsts.requiredMinEvents ≠ genuineConsts.verifyA ∨
        genuineConsts.requiredMinEvents ≠ genuineConsts.verifyB ∨
        genuineConsts.requiredMinEvents ≠ genuineConsts.verifyC) := by
      simp [genuineConsts]
    rw [mkNtrpRNG, if_neg hcond]
    refine ⟨_, rfl, ?_⟩
    dsimp only
    split
    · rfl
    · rfl
  · intro env opts now v p hv hne hp
    have hcond : ¬(genuineConsts.requiredMinEvents ≠ genuineConsts.verifyA ∨
        genuineConsts.requiredMinEvents ≠ genuineConsts.verifyB ∨
        genuineConsts.requiredMinEvents ≠ genuineConsts.verifyC) := by
      simp [genuineConsts]
    rw [mkNtrpRNG, if_neg hcond] at hp
    dsimp only at hp
    rw [Except.ok.injEq] at hp
    rw [← hp]
    show (match opts.minEvents with
      | some w => decide (w ≠ 500)
      | none => false) = true
    rw [hv]
    simpa using hne

/-- Witness for C4: a construction attempt overriding the threshold to
400 succeeds with the diagnostic emitted. -/
theorem integrity_guard_contract_witness :
    ∃ p, mkNtrpRNG genuineConsts ⟨0, 0, 0⟩ ⟨none, none, none, some 400⟩ 0 =
        .ok p ∧ p.2 = true := by
  obtain ⟨p, hp, _⟩ :=
    integrity_guard_contract.2.2.2.1 ⟨0, 0, 0⟩ ⟨none, none, none, some 400⟩ 0
  exact ⟨p, hp,
    integrity_guard_contract.2.2.2.2 ⟨0, 0, 0⟩ ⟨none, none, none, some 400⟩ 0
      400 p rfl (by decide) hp⟩

/-- C9: the baseline `cgRNDV` always reports sufficient entropy, returns
the 64 fresh hardware-random bytes of each call under either validation
flag, start/stop only toggle the `isCollecting` flag, and `getStats()`
reports zero pool sizes, zero weighted events and `hasMinimumEntropy:
true` in every reachable or unreachable state. -/
theorem baseline_contract (getRandomValues : Nat → List Nat)
    (hr : ∀ n, (getRandomValues n).length = n) (s : CgState) :
    cgHasMinimumEntropy s = true
    ∧ (∀ skipValidation,
        cgGenerateSeed getRandomValues s skipValidation = getRandomValues 64
        ∧ (cgGenerateSeed getRandomValues s skipValidation).length = 64)
    ∧ cgStartCollecting s = { s with isCollecting := true }
    ∧ cgStopCollecting s = { s with isCollecting := false }
    ∧ (cgGetStats s).totalEvents = 0
    ∧ (cgGetStats s).entropyPoolSize = 0
    ∧ (cgGetStats s).timerDeltasSize = 0
    ∧ (cgGetStats s).hasMinimumEntropy = true := by
  exact ⟨rfl, fun skipValidation => ⟨rfl, hr 64⟩, rfl, rfl, rfl, rfl, rfl, rfl⟩

/-- Witness for C9: a default-constructed baseline with an all-zero
CSPRNG model returns a 64-byte seed. -/
theorem baseline_contract_witness :
    (cgGenerateSeed (fun n => List.replicate n 0) (mkCgRNDV Options.empty)
      false).length = 64 :=
  ((baseline_contract (fun n => List.replicate n 0) (fun n => by simp)
    (mkCgRNDV Options.empty)).2.1 false).2

end NtrpRNG
